import Mathlib

/-!
Verification development for the squige PE64 header decoder.

The decoder lives in src/pe (util.rs, header.rs, sections.rs, mod.rs).  It is
embedded shallowly here: bytes are `Nat` values below 256 and byte buffers are
`List Nat`.  A nom parser of type `Input -> IResult<Input, O, VerboseError>` is
modelled as a function `Input → Except NomErr (Input × α)` returning the
remaining input together with the parsed value, or an error carrying the
innermost nom error kind and the stack of `context` labels that wrapped the
failing sub-parser (outermost label first).  Rust code that can panic
(unchecked indexing and slicing) is modelled one level up in `Option`:
`none` is a panic, `some r` is the returned nom result `r`.
-/

namespace Squige

/-- Byte buffer; mirrors `type Input<'a> = &'a [u8]` from util.rs. -/
abbrev Input := List Nat

/-- Innermost nom error kinds produced by the combinators this crate uses:
`bytes::complete::tag` fails with `Tag`, the complete number parsers and
`take` fail with `Eof` on short input, and `map_res` fails with `MapRes`
when the mapping function rejects the decoded integer. -/
inductive ErrKind where
  | tag
  | eof
  | mapRes
deriving DecidableEq

/-- Modelled nom `VerboseError`: the innermost error kind plus the `context`
labels around the failing sub-parser, outermost first. -/
structure NomErr where
  kind : ErrKind
  contexts : List String
deriving DecidableEq

/-- Mirrors `type Result<'a, O> = nom::IResult<Input<'a>, O, VerboseError>`. -/
abbrev NomResult (α : Type) := Except NomErr (Input × α)

/-- A nom parser over byte buffers. -/
abbrev Parser (α : Type) := Input → NomResult α

/-- Parser that consumes nothing and returns `a`. -/
def pOk {α : Type} (a : α) : Parser α := fun i => .ok (i, a)

/-- Sequencing of parsers, as done by `nom::sequence::tuple`. -/
def pbind {α β : Type} (p : Parser α) (f : α → Parser β) : Parser β := fun i =>
  match p i with
  | .error e => .error e
  | .ok (i', a) => f a i'

/-- Mirrors `nom::combinator::map`. -/
def pmap {α β : Type} (p : Parser α) (f : α → β) : Parser β :=
  pbind p fun a => pOk (f a)

/-- Mirrors `nom::error::context`: label an error as it propagates. -/
def context {α : Type} (label : String) (p : Parser α) : Parser α := fun i =>
  match p i with
  | .error e => .error { e with contexts := label :: e.contexts }
  | .ok r => .ok r

/-- Mirrors `nom::combinator::map_res`: run `p`, then apply the fallible `f`,
failing with `ErrorKind::MapRes` when `f` rejects the value. -/
def mapRes {α β : Type} (p : Parser α) (f : α → Option β) : Parser β := fun i =>
  match p i with
  | .error e => .error e
  | .ok (i', a) =>
    match f a with
    | some b => .ok (i', b)
    | none => .error ⟨.mapRes, []⟩

/-- Mirrors `nom::number::complete::le_u8`. -/
def leU8 : Parser Nat := fun i =>
  match i with
  | b0 :: rest => .ok (rest, b0)
  | _ => .error ⟨.eof, []⟩

/-- Mirrors `nom::number::complete::le_u16` (little endian). -/
def leU16 : Parser Nat := fun i =>
  match i with
  | b0 :: b1 :: rest => .ok (rest, b0 + 0x100 * b1)
  | _ => .error ⟨.eof, []⟩

/-- Mirrors `nom::number::complete::le_u32` (little endian). -/
def leU32 : Parser Nat := fun i =>
  match i with
  | b0 :: b1 :: b2 :: b3 :: rest =>
      .ok (rest, b0 + 0x100 * b1 + 0x10000 * b2 + 0x1000000 * b3)
  | _ => .error ⟨.eof, []⟩

/-- Mirrors `nom::number::complete::le_u64` (little endian). -/
def leU64 : Parser Nat := fun i =>
  match i with
  | b0 :: b1 :: b2 :: b3 :: b4 :: b5 :: b6 :: b7 :: rest =>
      .ok (rest, b0 + 0x100 * b1 + 0x10000 * b2 + 0x1000000 * b3 +
        0x100000000 * b4 + 0x10000000000 * b5 + 0x1000000000000 * b6 +
        0x100000000000000 * b7)
  | _ => .error ⟨.eof, []⟩

/-- Mirrors `nom::bytes::complete::tag`: require the literal byte sequence
`bs` at the front of the input (error kind `Tag` on mismatch or short input). -/
def tagP (bs : List Nat) : Parser (List Nat) := fun i =>
  if bs.isPrefixOf i then .ok (i.drop bs.length, bs) else .error ⟨.tag, []⟩

/-- Mirrors `nom::bytes::complete::take(n)`. -/
def takeP (n : Nat) : Parser (List Nat) := fun i =>
  if n ≤ i.length then .ok (i.drop n, i.take n) else .error ⟨.eof, []⟩

/-- Little-endian encoding of a 16-bit value, for stating decode claims. -/
def encodeLE16 (n : Nat) : List Nat := [n % 0x100, n / 0x100 % 0x100]

/-- Little-endian encoding of a 32-bit value, for stating decode claims. -/
def encodeLE32 (n : Nat) : List Nat :=
  [n % 0x100, n / 0x100 % 0x100, n / 0x10000 % 0x100, n / 0x1000000 % 0x100]

/-- Machine architecture codes, from header.rs. -/
inductive Machine where
  | Unknown
  | AMD64
  | IA64
  | I386
deriving DecidableEq

/-- Mirrors `impl TryFrom<u16> for Machine` in header.rs: the four recognized
codes map to variants, everything else is rejected. -/
def Machine.tryFrom (n : Nat) : Option Machine :=
  if n = 0 then some .Unknown
  else if n = 0x8664 then some .AMD64
  else if n = 0x200 then some .IA64
  else if n = 0x14C then some .I386
  else none

/-- Expansion of `impl_parse_for_enum!(Machine, le_u16)` from util.rs. -/
def Machine.parse : Parser Machine :=
  context "Machine" (mapRes leU16 Machine.tryFrom)

/-- Required-subsystem codes, from header.rs. -/
inductive Subsystem where
  | Unknown
  | Native
  | WindowsGui
  | WindowsCui
  | Os2Cui
  | PosixCui
  | NativeWindows
  | WindowsCeGui
  | EfiApplication
  | EfiBootServiceDriver
  | EfiRuntimeDriver
  | EfiRom
  | Xbox
  | WindowsBootApplication
deriving DecidableEq

/-- Mirrors `impl TryFrom<u16> for Subsystem` in header.rs. -/
def Subsystem.tryFrom (n : Nat) : Option Subsystem :=
  if n = 0 then some .Unknown
  else if n = 1 then some .Native
  else if n = 2 then some .WindowsGui
  else if n = 3 then some .WindowsCui
  else if n = 5 then some .Os2Cui
  else if n = 7 then some .PosixCui
  else if n = 8 then some .NativeWindows
  else if n = 9 then some .WindowsCeGui
  else if n = 10 then some .EfiApplication
  else if n = 11 then some .EfiBootServiceDriver
  else if n = 12 then some .EfiRuntimeDriver
  else if n = 13 then some .EfiRom
  else if n = 14 then some .Xbox
  else if n = 16 then some .WindowsBootApplication
  else none

/-- Expansion of `impl_parse_for_enum!(Subsystem, le_u16)` from util.rs. -/
def Subsystem.parse : Parser Subsystem :=
  context "Subsystem" (mapRes leU16 Subsystem.tryFrom)

/-- File-header `Characteristics` flag set from the `bitflags!` block in
header.rs (named `Characteristics` in the source; the section flag set of
sections.rs carries the same source name), represented by its raw 16-bit
pattern. -/
structure FileCharacteristics where
  bits : Nat
deriving DecidableEq

/-- Union of the flag constants declared in the header.rs `bitflags!` block
(`IMAGE_FILE_RELOCS_STRIPPED` 0x0001 through `IMAGE_FILE_BYTES_REVERSED_HI`
0x8000; note that bit 0x0040 is not declared). -/
def FileCharacteristics.mask : Nat :=
  0x0001 ||| 0x0002 ||| 0x0004 ||| 0x0008 ||| 0x0010 ||| 0x0020 ||| 0x0080 |||
  0x0100 ||| 0x0200 ||| 0x0400 ||| 0x0800 ||| 0x1000 ||| 0x2000 ||| 0x4000 |||
  0x8000

/-- bitflags `from_bits`: accept the pattern iff no bit lies outside the union
of the declared flags (`bits & !all == 0` on u16). -/
def FileCharacteristics.from_bits (n : Nat) : Option FileCharacteristics :=
  if n &&& (0xFFFF ^^^ FileCharacteristics.mask) = 0 then some ⟨n⟩ else none

/-- Expansion of `impl_parse_for_enumflags!(Characteristics, le_u16)`. -/
def FileCharacteristics.parse : Parser FileCharacteristics :=
  context "Characteristics" (mapRes leU16 FileCharacteristics.from_bits)

/-- `DllCharacteristics` flag set from the `bitflags!` block in header.rs,
represented by its raw 16-bit pattern. -/
structure DllCharacteristics where
  bits : Nat
deriving DecidableEq

/-- Union of the declared `IMAGE_DLLCHARACTERISTICS_*` constants. -/
def DllCharacteristics.mask : Nat :=
  0x0020 ||| 0x0040 ||| 0x0080 ||| 0x0100 ||| 0x0200 ||| 0x0400 ||| 0x0800 |||
  0x1000 ||| 0x2000 ||| 0x4000 ||| 0x8000

/-- bitflags `from_bits` for `DllCharacteristics`. -/
def DllCharacteristics.from_bits (n : Nat) : Option DllCharacteristics :=
  if n &&& (0xFFFF ^^^ DllCharacteristics.mask) = 0 then some ⟨n⟩ else none

/-- Expansion of `impl_parse_for_enumflags!(DllCharacteristics, le_u16)`. -/
def DllCharacteristics.parse : Parser DllCharacteristics :=
  context "DllCharacteristics" (mapRes leU16 DllCharacteristics.from_bits)

/-- Section `Characteristics` flag set from the `bitflags!` block in
sections.rs (named `Characteristics` in that module), represented by its raw
32-bit pattern. -/
structure SectionCharacteristics where
  bits : Nat
deriving DecidableEq

/-- Union of the `IMAGE_SCN_*` constants declared in sections.rs. -/
def SectionCharacteristics.mask : Nat :=
  0x8 ||| 0x20 ||| 0x40 ||| 0x80 ||| 0x200 ||| 0x800 ||| 0x1000 ||| 0x8000 |||
  0x00100000 ||| 0x00200000 ||| 0x00300000 ||| 0x00400000 ||| 0x00500000 |||
  0x00600000 ||| 0x00700000 ||| 0x00800000 ||| 0x00900000 ||| 0x00A00000 |||
  0x00B00000 ||| 0x00C00000 ||| 0x00D00000 ||| 0x00E00000 |||
  0x01000000 ||| 0x02000000 ||| 0x04000000 ||| 0x08000000 ||| 0x10000000 |||
  0x20000000 ||| 0x40000000 ||| 0x80000000

/-- bitflags `from_bits` for the section flag set (`bits & !all == 0` on u32). -/
def SectionCharacteristics.from_bits (n : Nat) : Option SectionCharacteristics :=
  if n &&& (0xFFFFFFFF ^^^ SectionCharacteristics.mask) = 0 then some ⟨n⟩
  else none

/-- Expansion of `impl_parse_for_enumflags!(Characteristics, le_u32)` in
sections.rs (same `stringify!` context label as the file flag set). -/
def SectionCharacteristics.parse : Parser SectionCharacteristics :=
  context "Characteristics" (mapRes leU32 SectionCharacteristics.from_bits)

/-- File or virtual address carried in a 32-bit field (`Addr32` in util.rs). -/
structure Addr32 where
  val : Nat
deriving DecidableEq

/-- Mirrors `Addr32::parse` in util.rs (`map(le_u32, From::from)`). -/
def Addr32.parse : Parser Addr32 := pmap leU32 Addr32.mk

/-- File or virtual address carried in a 64-bit field (`Addr` in util.rs). -/
structure Addr where
  val : Nat
deriving DecidableEq

/-- Mirrors `Addr::parse` in util.rs (`map(le_u64, From::from)`). -/
def Addr.parse : Parser Addr := pmap leU64 Addr.mk

/-- One data-directory entry: (relative address, size), from header.rs. -/
structure DataDirectory where
  virtual_addr : Addr32
  size : Nat
deriving DecidableEq

/-- Mirrors `DataDirectory::parse` in header.rs. -/
def DataDirectory.parse : Parser DataDirectory :=
  pbind (context "Virtual Address" Addr32.parse) fun virtual_addr =>
  pbind (context "Size" leU32) fun size =>
  pOk { virtual_addr, size }

/-- Windows-specific optional-header fields, from header.rs. -/
structure WindowsFields where
  image_base : Nat
  section_alignment : Nat
  file_alignment : Nat
  major_os_version : Nat
  minor_os_version : Nat
  major_image_version : Nat
  minor_image_version : Nat
  major_subsystem_version : Nat
  minor_subsystem_version : Nat
  win32_version_value : Nat
  size_of_image : Nat
  size_of_headers : Nat
  checksum : Nat
  subsystem : Subsystem
  dll_characteristics : DllCharacteristics
  size_of_stack_reserve : Nat
  size_of_stack_commit : Nat
  size_of_heap_reserve : Nat
  size_of_heap_commit : Nat
  loader_flags : Nat
  number_of_rva_and_sizes : Nat
deriving DecidableEq

/-- Mirrors `WindowsFields::parse` in header.rs: a `tuple` of the 21 fields in
on-disk order.  Note the two reserved fields (`Win32VersionValue` and
`LoaderFlags`) are read as plain `le_u32` fields with no zero check. -/
def WindowsFields.parse : Parser WindowsFields :=
  pbind (context "ImageBase" leU64) fun image_base =>
  pbind (context "SectionAlignment" leU32) fun section_alignment =>
  pbind (context "FileAlignment" leU32) fun file_alignment =>
  pbind (context "MajorOperatingSystemVersion" leU16) fun major_os_version =>
  pbind (context "MinorOperatingSystemVersion" leU16) fun minor_os_version =>
  pbind (context "MajorImageVersion" leU16) fun major_image_version =>
  pbind (context "MinorImageVersion" leU16) fun minor_image_version =>
  pbind (context "MajorSubsystemVersion" leU16) fun major_subsystem_version =>
  pbind (context "MinorSubsystemVersion" leU16) fun minor_subsystem_version =>
  pbind (context "Win32VersionValue" leU32) fun win32_version_value =>
  pbind (context "SizeOfImage" leU32) fun size_of_image =>
  pbind (context "SizeOfHeaders" leU32) fun size_of_headers =>
  pbind (context "CheckSum" leU32) fun checksum =>
  pbind (context "Subsystem" Subsystem.parse) fun subsystem =>
  pbind (context "DllCharacteristics" DllCharacteristics.parse)
    fun dll_characteristics =>
  pbind (context "SizeOfStackReserve" leU64) fun size_of_stack_reserve =>
  pbind (context "SizeOfStackCommit" leU64) fun size_of_stack_commit =>
  pbind (context "SizeOfHeapReserve" leU64) fun size_of_heap_reserve =>
  pbind (context "SizeOfHeapCommit" leU64) fun size_of_heap_commit =>
  pbind (context "LoaderFlags" leU32) fun loader_flags =>
  pbind (context "NumberOfRvaAndSizes" leU32) fun number_of_rva_and_sizes =>
  pOk { image_base, section_alignment, file_alignment, major_os_version,
        minor_os_version, major_image_version, minor_image_version,
        major_subsystem_version, minor_subsystem_version, win32_version_value,
        size_of_image, size_of_headers, checksum, subsystem,
        dll_characteristics, size_of_stack_reserve, size_of_stack_commit,
        size_of_heap_reserve, size_of_heap_commit, loader_flags,
        number_of_rva_and_sizes }

/-- The fixed data-directory table, from header.rs: 14 named entries plus one
`Addr` slot (`global_ptr`) and two reserved all-zero 8-byte slots that are
consumed by `tag` but not stored. -/
structure DataDirectories where
  export_table : DataDirectory
  import_table : DataDirectory
  resource_table : DataDirectory
  exception_table : DataDirectory
  certificate_table : DataDirectory
  base_relocation_table : DataDirectory
  debug_data : DataDirectory
  global_ptr : Addr
  tls_table : DataDirectory
  load_config_table : DataDirectory
  bound_import : DataDirectory
  iat : DataDirectory
  delay_import_descriptor : DataDirectory
  clr_runtime_header : DataDirectory
deriving DecidableEq

/-- Mirrors `DataDirectories::parse` in header.rs: a `tuple` of entries in the
fixed order, with the reserved `Architecture` and `Padding` slots required to
be eight zero bytes each (`tag`). -/
def DataDirectories.parse : Parser DataDirectories :=
  pbind (context "ExportTable" DataDirectory.parse) fun export_table =>
  pbind (context "ImportTable" DataDirectory.parse) fun import_table =>
  pbind (context "ResourceTable" DataDirectory.parse) fun resource_table =>
  pbind (context "ExceptionTable" DataDirectory.parse) fun exception_table =>
  pbind (context "CertificateTable" DataDirectory.parse)
    fun certificate_table =>
  pbind (context "BaseRelocationTable" DataDirectory.parse)
    fun base_relocation_table =>
  pbind (context "Debug" DataDirectory.parse) fun debug_data =>
  pbind (context "Architecture" (tagP [0, 0, 0, 0, 0, 0, 0, 0])) fun _ =>
  pbind (context "GlobalPtr" Addr.parse) fun global_ptr =>
  pbind (context "TlsTable" DataDirectory.parse) fun tls_table =>
  pbind (context "LoadConfigTable" DataDirectory.parse)
    fun load_config_table =>
  pbind (context "BoundImport" DataDirectory.parse) fun bound_import =>
  pbind (context "IAT" DataDirectory.parse) fun iat =>
  pbind (context "DelayImportDescriptor" DataDirectory.parse)
    fun delay_import_descriptor =>
  pbind (context "ClrRuntimeHeader" DataDirectory.parse)
    fun clr_runtime_header =>
  pbind (context "Padding" (tagP [0, 0, 0, 0, 0, 0, 0, 0])) fun _ =>
  pOk { export_table, import_table, resource_table, exception_table,
        certificate_table, base_relocation_table, debug_data, global_ptr,
        tls_table, load_config_table, bound_import, iat,
        delay_import_descriptor, clr_runtime_header }

/-- The 64-bit optional header, from header.rs. -/
structure OptionalHeader64 where
  major_linker_version : Nat
  minor_linker_version : Nat
  size_of_code : Nat
  size_of_initialized_data : Nat
  size_of_uninitialized_data : Nat
  entry_point : Addr32
  base_of_code : Nat
  windows_header : WindowsFields
  data_directories : DataDirectories
deriving DecidableEq

/-- The optional-header magic, `OptionalHeader64::MAGIC = [0x0B, 0x02]`
(the little-endian bytes of the constant 0x020B). -/
def OptionalHeader64.MAGIC : List Nat := [0x0B, 0x02]

/-- Mirrors `OptionalHeader64::parse` in header.rs: `tag(MAGIC)` then the
COFF-standard fields, the Windows fields, and the data directories. -/
def OptionalHeader64.parse : Parser OptionalHeader64 :=
  pbind (context "Magic" (tagP OptionalHeader64.MAGIC)) fun _ =>
  pbind (context "MajorLinkerVersion" leU8) fun major_linker_version =>
  pbind (context "MinorLinkerVersion" leU8) fun minor_linker_version =>
  pbind (context "SizeOfCode" leU32) fun size_of_code =>
  pbind (context "SizeOfInitializedData" leU32)
    fun size_of_initialized_data =>
  pbind (context "SizeOfUninitializedData" leU32)
    fun size_of_uninitialized_data =>
  pbind (context "AddressOfEntryPoint" Addr32.parse) fun entry_point =>
  pbind (context "BaseOfCode" leU32) fun base_of_code =>
  pbind (context "Windows" WindowsFields.parse) fun windows_header =>
  pbind (context "DataDirectories" DataDirectories.parse)
    fun data_directories =>
  pOk { major_linker_version, minor_linker_version, size_of_code,
        size_of_initialized_data, size_of_uninitialized_data, entry_point,
        base_of_code, windows_header, data_directories }

/-- The COFF file header, from header.rs. -/
structure PeHeader64 where
  machine : Machine
  number_of_sections : Nat
  time_date_stamp : Nat
  pointer_to_sym_table : Addr32
  number_of_symbols : Nat
  size_of_optional_header : Nat
  characteristics : FileCharacteristics
  optional_header : OptionalHeader64
deriving DecidableEq

/-- The PE signature, `PeHeader64::MAGIC = [0x50, 0x45, 0x00, 0x00]`. -/
def PeHeader64.MAGIC : List Nat := [0x50, 0x45, 0x00, 0x00]

/-- Mirrors `PeHeader64::parse_from_pe_header` in header.rs. -/
def PeHeader64.parse_from_pe_header : Parser PeHeader64 :=
  pbind (context "Magic" (tagP PeHeader64.MAGIC)) fun _ =>
  pbind (context "Machine" Machine.parse) fun machine =>
  pbind (context "NumberOfSections" leU16) fun number_of_sections =>
  pbind (context "TimeDateStamp" leU32) fun time_date_stamp =>
  pbind (context "PointerToSymbolTable" Addr32.parse)
    fun pointer_to_sym_table =>
  pbind (context "NumberOfSymbols" leU32) fun number_of_symbols =>
  pbind (context "SizeOfOptionalHeader" leU16)
    fun size_of_optional_header =>
  pbind (context "Characteristics" FileCharacteristics.parse)
    fun characteristics =>
  pbind (context "OptionalHeader" OptionalHeader64.parse)
    fun optional_header =>
  pOk { machine, number_of_sections, time_date_stamp, pointer_to_sym_table,
        number_of_symbols, size_of_optional_header, characteristics,
        optional_header }

/-- Mirrors `PeHeader64::parse` in header.rs:
`let offset = i[0x3c] as usize; Self::parse_from_pe_header(&i[offset..])`.
Both the index `i[0x3c]` and the slice `&i[offset..]` are unchecked in the
source, so a buffer of at most 0x3C bytes, or a stored offset larger than the
buffer length, is a panic, modelled as `none`. -/
def PeHeader64.parse (i : Input) : Option (NomResult PeHeader64) :=
  match i.get? 0x3C with
  | none => none
  | some offset =>
    if offset ≤ i.length then
      some (PeHeader64.parse_from_pe_header (i.drop offset))
    else none

/-- Lower bound of the first continuation byte admitted after the UTF-8 lead
byte `b` (0xE0 and 0xF0 restrict it above 0x80). -/
def utf8Cont1Lo (b : Nat) : Nat :=
  if b = 0xE0 then 0xA0 else if b = 0xF0 then 0x90 else 0x80

/-- Upper bound of the first continuation byte admitted after the UTF-8 lead
byte `b` (0xED and 0xF4 restrict it below 0xBF). -/
def utf8Cont1Hi (b : Nat) : Nat :=
  if b = 0xED then 0x9F else if b = 0xF4 then 0x8F else 0xBF

/-- Recursion core of `utf8Lossy`.  The `fuel` argument only makes the
recursion structural: every step consumes at least one input byte and exactly
one unit of fuel, so any fuel of at least the input length computes the
decoding; `utf8Lossy` passes the input length. -/
def utf8LossyGo : Nat → List Nat → List Nat
  | 0, _ => []
  | _ + 1, [] => []
  | fuel + 1, b :: bs =>
    if b < 0x80 then b :: utf8LossyGo fuel bs
    else if 0xC2 ≤ b ∧ b ≤ 0xDF then
      match bs with
      | [] => [0xFFFD]
      | b1 :: bs1 =>
        if 0x80 ≤ b1 ∧ b1 ≤ 0xBF then
          ((b - 0xC0) * 0x40 + (b1 - 0x80)) :: utf8LossyGo fuel bs1
        else 0xFFFD :: utf8LossyGo fuel (b1 :: bs1)
    else if 0xE0 ≤ b ∧ b ≤ 0xEF then
      match bs with
      | [] => [0xFFFD]
      | b1 :: bs1 =>
        if utf8Cont1Lo b ≤ b1 ∧ b1 ≤ utf8Cont1Hi b then
          match bs1 with
          | [] => [0xFFFD]
          | b2 :: bs2 =>
            if 0x80 ≤ b2 ∧ b2 ≤ 0xBF then
              ((b - 0xE0) * 0x1000 + (b1 - 0x80) * 0x40 + (b2 - 0x80)) ::
                utf8LossyGo fuel bs2
            else 0xFFFD :: utf8LossyGo fuel (b2 :: bs2)
        else 0xFFFD :: utf8LossyGo fuel (b1 :: bs1)
    else if 0xF0 ≤ b ∧ b ≤ 0xF4 then
      match bs with
      | [] => [0xFFFD]
      | b1 :: bs1 =>
        if utf8Cont1Lo b ≤ b1 ∧ b1 ≤ utf8Cont1Hi b then
          match bs1 with
          | [] => [0xFFFD]
          | b2 :: bs2 =>
            if 0x80 ≤ b2 ∧ b2 ≤ 0xBF then
              match bs2 with
              | [] => [0xFFFD]
              | b3 :: bs3 =>
                if 0x80 ≤ b3 ∧ b3 ≤ 0xBF then
                  ((b - 0xF0) * 0x40000 + (b1 - 0x80) * 0x1000 +
                    (b2 - 0x80) * 0x40 + (b3 - 0x80)) :: utf8LossyGo fuel bs3
                else 0xFFFD :: utf8LossyGo fuel (b3 :: bs3)
            else 0xFFFD :: utf8LossyGo fuel (b2 :: bs2)
        else 0xFFFD :: utf8LossyGo fuel (b1 :: bs1)
    else 0xFFFD :: utf8LossyGo fuel bs

/-- Models `String::from_utf8_lossy` as a byte-list to codepoint-list
function: well-formed UTF-8 sequences decode to their scalar value, and each
maximal valid prefix of an ill-formed sequence is replaced by one U+FFFD. -/
def utf8Lossy (l : List Nat) : List Nat := utf8LossyGo l.length l

/-- Unicode `White_Space` test on a codepoint, as used by Rust `str::trim`
(`char::is_whitespace`). -/
def isRustWhitespace (c : Nat) : Bool :=
  c == 0x09 || c == 0x0A || c == 0x0B || c == 0x0C || c == 0x0D ||
  c == 0x20 || c == 0x85 || c == 0xA0 || c == 0x1680 ||
  (decide (0x2000 ≤ c) && decide (c ≤ 0x200A)) ||
  c == 0x2028 || c == 0x2029 || c == 0x202F || c == 0x205F || c == 0x3000

/-- Models Rust `str::trim`: remove leading and trailing whitespace
codepoints (and nothing else). -/
def trimCodepoints (l : List Nat) : List Nat :=
  ((l.dropWhile isRustWhitespace).reverse.dropWhile isRustWhitespace).reverse

/-- The section-name computation performed by `SectionHeader::parse` in
sections.rs: `String::from_utf8_lossy(raw_name).trim().to_string()`. -/
def decodeSectionName (raw : List Nat) : List Nat :=
  trimCodepoints (utf8Lossy raw)

/-- Models `impl From<String> for SectionName` in util.rs, which removes every
null character (`remove_matches("\x00")`).  This helper exists in the source
but is never invoked by `SectionHeader::parse`, which uses `trim` instead. -/
def sectionNameFrom (s : List Nat) : List Nat := s.filter (fun c => c != 0)

/-- A decoded section header, from sections.rs (`mod.rs` refers to the same
record type as `Section`).  The name is stored as the codepoint list produced
by `decodeSectionName`. -/
structure SectionHeader where
  name : List Nat
  virtual_size : Nat
  virtual_address : Addr32
  size_of_raw_data : Nat
  pointer_to_raw_data : Addr32
  pointer_to_relocations : Addr32
  pointer_to_line_numbers : Nat
  number_of_relocations : Nat
  number_of_line_numbers : Nat
  characteristics : SectionCharacteristics
  data : List Nat
deriving DecidableEq

/-- The fixed 40-byte record part of `SectionHeader::parse` (the `tuple` call
in sections.rs), yielding the raw name bytes and the scalar fields. -/
def SectionHeader.parseRecord :
    Parser (List Nat × Nat × Addr32 × Nat × Addr32 × Addr32 × Nat ×
      SectionCharacteristics) :=
  pbind (context "Name" (takeP 8)) fun raw_name =>
  pbind (context "VirtualSize" leU32) fun virtual_size =>
  pbind (context "VirtualAddress" Addr32.parse) fun virtual_address =>
  pbind (context "SizeOfRawData" leU32) fun size_of_raw_data =>
  pbind (context "PointerToRawData" Addr32.parse) fun pointer_to_raw_data =>
  pbind (context "PointerToRelocations" Addr32.parse)
    fun pointer_to_relocations =>
  pbind (context "PointerToLinenumbers" (tagP [0, 0, 0, 0])) fun _ =>
  pbind (context "NumberOfRelocations" leU16) fun number_of_relocations =>
  pbind (context "NumberOfLinenumbers" (tagP [0, 0])) fun _ =>
  pbind (context "Characteristics" SectionCharacteristics.parse)
    fun characteristics =>
  pOk (raw_name, virtual_size, virtual_address, size_of_raw_data,
    pointer_to_raw_data, pointer_to_relocations, number_of_relocations,
    characteristics)

/-- Mirrors `SectionHeader::parse` in sections.rs.  After the 40-byte record
is consumed, the section data is sliced as
`i[pointer_to_raw_data..][..size_of_raw_data].to_vec()` where `i` is the
post-record remainder — NOT the `full_input` parameter, which the source
accepts and never uses.  The slice is unchecked, so a raw-data range that
does not fit inside the remainder is a panic, modelled as `none`. -/
def SectionHeader.parse (full_input i : Input) :
    Option (NomResult SectionHeader) :=
  match SectionHeader.parseRecord i with
  | .error e => some (.error e)
  | .ok (rest, (raw_name, virtual_size, virtual_address, size_of_raw_data,
      pointer_to_raw_data, pointer_to_relocations, number_of_relocations,
      characteristics)) =>
    let name := decodeSectionName raw_name
    if pointer_to_raw_data.val + size_of_raw_data ≤ rest.length then
      some (.ok (rest,
        { name, virtual_size, virtual_address, size_of_raw_data,
          pointer_to_raw_data, pointer_to_relocations,
          pointer_to_line_numbers := 0, number_of_relocations,
          number_of_line_numbers := 0, characteristics,
          data := (rest.drop pointer_to_raw_data.val).take size_of_raw_data }))
    else none

/-- Recursion core of `chunks40`; as in `utf8LossyGo`, the `fuel` argument
only makes the recursion structural (each step consumes at least one byte). -/
def chunks40Go : Nat → Input → List Input
  | 0, _ => []
  | _ + 1, [] => []
  | fuel + 1, l@(_ :: _) => l.take 40 :: chunks40Go fuel (l.drop 40)

/-- Mirrors slice `chunks(40)`: consecutive 40-byte chunks of the input, the
last chunk possibly shorter, none for an empty input. -/
def chunks40 (l : Input) : List Input := chunks40Go l.length l

/-- The section loop of `File::parse` in mod.rs: parse each 40-byte chunk in
order, short-circuiting on the first parse error (`?`) and propagating a
panic from `SectionHeader::parse`. -/
def parseSectionsLoop (full : Input) :
    List Input → Option (Except NomErr (List SectionHeader))
  | [] => some (.ok [])
  | c :: cs =>
    match SectionHeader.parse full c with
    | none => none
    | some (.error e) => some (.error e)
    | some (.ok (_, sec)) =>
      match parseSectionsLoop full cs with
      | none => none
      | some (.error e) => some (.error e)
      | some (.ok secs) => some (.ok (sec :: secs))

/-- An entire decoded PE64 file, from mod.rs. -/
structure File where
  header : PeHeader64
  sections : List SectionHeader
deriving DecidableEq

/-- Mirrors `File::parse` in mod.rs: parse the header under the "Header"
context, then split the post-header remainder into 40-byte chunks and parse
the first `number_of_sections` of them against the full input buffer.
The returned remaining input is the post-header remainder. -/
def File.parse (i : Input) : Option (NomResult File) :=
  let full_input := i
  match PeHeader64.parse i with
  | none => none
  | some (.error e) =>
      some (.error { e with contexts := "Header" :: e.contexts })
  | some (.ok (i', header)) =>
    let sec_count := header.number_of_sections
    match parseSectionsLoop full_input ((chunks40 i').take sec_count) with
    | none => none
    | some (.error e) => some (.error e)
    | some (.ok sections) => some (.ok (i', { header, sections }))

/-- Mirrors `File::parse_or_print_error` in mod.rs: `Some(file)` on success,
`None` after printing diagnostics on a parse error, and a propagated panic
(outer `none`) when `File::parse` panics. -/
def File.parse_or_print_error (i : Input) : Option (Option File) :=
  match File.parse i with
  | none => none
  | some (.error _) => some none
  | some (.ok (_, file)) => some (some file)

/-- The decoded `File` when `File::parse` returns success, and nothing when
it fails or panics. -/
def File.parseSuccess (i : Input) : Option File :=
  match File.parse i with
  | some (.ok (_, f)) => some f
  | _ => none

/-- Number of sections in a successfully decoded file. -/
def parsedSectionCount (i : Input) : Option Nat :=
  (File.parseSuccess i).map fun f => f.sections.length

/-- The `number_of_sections` field of a successfully decoded file's header. -/
def parsedDeclaredCount (i : Input) : Option Nat :=
  (File.parseSuccess i).map fun f => f.header.number_of_sections

/-- The name of the section decoded by a successful `SectionHeader::parse`. -/
def parsedSectionName (full i : Input) : Option (List Nat) :=
  match SectionHeader.parse full i with
  | some (.ok (_, s)) => some s.name
  | _ => none

/-- A 368-byte synthetic buffer that `File::parse` fully decodes: byte 0x3C
holds the header offset 0x40; at 0x40 the PE signature is followed by an
all-zero COFF header declaring machine `Unknown` (code 0) and one section,
then a well-formed all-zero 64-bit optional header (magic bytes 0x0B 0x02 at
offset 0x58) ending at offset 328, and finally one all-zero 40-byte section
record (empty name, zero raw-data pointer and size). -/
def bufOk : Input :=
  ((((((List.replicate 368 0).set 0x3C 0x40).set 0x40 0x50).set 0x41
      0x45).set 0x46 1).set 0x58 0x0B).set 0x59 0x02

/-- The first 328 bytes of `bufOk`: the full header (still declaring one
section) with no bytes left for the section table. -/
def bufNoSec : Input := bufOk.take 328

/-- `bufOk` with the section record's `PointerToRawData` set to 0x200 = 512,
so that `raw_data_pointer + raw_data_size = 512` exceeds the 368-byte buffer
length. -/
def bufOOB : Input := bufOk.set 349 2

/-- `bufOk` extended by eight data bytes, with the section record declaring
`SizeOfRawData = 8` and `PointerToRawData = 0x170 = 368`: the raw-data range
[368, 376) lies entirely inside this 376-byte buffer. -/
def bufData : Input :=
  (((bufOk.set 344 8).set 348 0x70).set 349 0x01) ++ [1, 2, 3, 4, 5, 6, 7, 8]

/-- A 40-byte section record whose name field is "abc" followed by five null
bytes, all other fields zero. -/
def recAbc : Input := [0x61, 0x62, 0x63, 0, 0, 0, 0, 0] ++ List.replicate 32 0

/-- A 240-byte optional-header region: the magic bytes 0x0B 0x02 followed by
zeros (which decode as valid COFF fields, Windows fields and directories). -/
def optBuf : Input := OptionalHeader64.MAGIC ++ List.replicate 238 0

/-- Whether `OptionalHeader64::parse` succeeds on the given input. -/
def optionalHeaderOk (i : Input) : Bool :=
  match OptionalHeader64.parse i with
  | .ok _ => true
  | .error _ => false

/-- An 88-byte `WindowsFields` region that is all zero except for the two
reserved fields: `Win32VersionValue` carries `v` (offset 28) and
`LoaderFlags` carries `w` (offset 80), little endian. -/
def mkWF (v w : Nat) : Input :=
  [0, 0, 0, 0, 0, 0, 0, 0,
   0, 0, 0, 0,
   0, 0, 0, 0,
   0, 0, 0, 0, 0, 0, 0, 0, 0, 0, 0, 0] ++
  encodeLE32 v ++
  [0, 0, 0, 0, 0, 0, 0, 0, 0, 0, 0, 0,
   0, 0,
   0, 0,
   0, 0, 0, 0, 0, 0, 0, 0,
   0, 0, 0, 0, 0, 0, 0, 0,
   0, 0, 0, 0, 0, 0, 0, 0,
   0, 0, 0, 0, 0, 0, 0, 0] ++
  encodeLE32 w ++
  [0, 0, 0, 0]

/-- The `WindowsFields` value that decoding `mkWF v w` produces: all fields
zero except the two reserved fields, which carry `v` and `w` unchanged. -/
def wfExpected (v w : Nat) : WindowsFields :=
  { image_base := 0, section_alignment := 0, file_alignment := 0,
    major_os_version := 0, minor_os_version := 0, major_image_version := 0,
    minor_image_version := 0, major_subsystem_version := 0,
    minor_subsystem_version := 0, win32_version_value := v,
    size_of_image := 0, size_of_headers := 0, checksum := 0,
    subsystem := .Unknown, dll_characteristics := ⟨0⟩,
    size_of_stack_reserve := 0, size_of_stack_commit := 0,
    size_of_heap_reserve := 0, size_of_heap_commit := 0, loader_flags := w,
    number_of_rva_and_sizes := 0 }

/-- A 130-byte all-zero buffer fed to `DataDirectories::parse` (two bytes
beyond the 128 bytes of the directory table). -/
def ddBuf : Input := List.replicate 130 0

/-- The all-zero data-directory table decoded from `ddBuf`. -/
def ddZero : DataDirectories :=
  { export_table := ⟨⟨0⟩, 0⟩, import_table := ⟨⟨0⟩, 0⟩,
    resource_table := ⟨⟨0⟩, 0⟩, exception_table := ⟨⟨0⟩, 0⟩,
    certificate_table := ⟨⟨0⟩, 0⟩, base_relocation_table := ⟨⟨0⟩, 0⟩,
    debug_data := ⟨⟨0⟩, 0⟩, global_ptr := ⟨0⟩, tls_table := ⟨⟨0⟩, 0⟩,
    load_config_table := ⟨⟨0⟩, 0⟩, bound_import := ⟨⟨0⟩, 0⟩,
    iat := ⟨⟨0⟩, 0⟩, delay_import_descriptor := ⟨⟨0⟩, 0⟩,
    clr_runtime_header := ⟨⟨0⟩, 0⟩ }

/-- The all-zero optional header decoded from `optBuf`. -/
def ohZero : OptionalHeader64 :=
  { major_linker_version := 0, minor_linker_version := 0, size_of_code := 0,
    size_of_initialized_data := 0, size_of_uninitialized_data := 0,
    entry_point := ⟨0⟩, base_of_code := 0, windows_header := wfExpected 0 0,
    data_directories := ddZero }

/-- Number of bytes a parser consumes whenever it succeeds. -/
def Consumes {α : Type} (p : Parser α) (k : Nat) : Prop :=
  ∀ i rest a, p i = .ok (rest, a) → rest = i.drop k

end Squige

open Squige

set_option maxRecDepth 8000

theorem leU16_encode (n : Nat) (rest : Squige.Input) (h : n < 0x10000) :
    leU16 (Squige.encodeLE16 n ++ rest) = .ok (rest, n) := by
  simp only [encodeLE16, List.cons_append, List.nil_append, leU16]
  refine congrArg Except.ok (Prod.ext rfl ?_)
  simp only
  omega

theorem leU32_encode (n : Nat) (rest : Squige.Input) (h : n < 0x100000000) :
    leU32 (Squige.encodeLE32 n ++ rest) = .ok (rest, n) := by
  simp only [encodeLE32, List.cons_append, List.nil_append, leU32]
  refine congrArg Except.ok (Prod.ext rfl ?_)
  simp only
  omega

theorem land_xor_ones_eq_zero_iff (w n m : Nat) (hn : n < 2 ^ w) :
    n &&& ((2 ^ w - 1) ^^^ m) = 0 ↔ n &&& m = n := by
  have hbit : ∀ i, w ≤ i → n.testBit i = false := by
    intro i hi
    exact Nat.testBit_lt_two_pow
      (lt_of_lt_of_le hn (Nat.pow_le_pow_right (by norm_num) hi))
  constructor
  · intro h
    apply Nat.eq_of_testBit_eq
    intro i
    rw [Nat.testBit_land]
    cases hb : n.testBit i with
    | false => simp
    | true =>
      have hiw : i < w := by
        by_contra hge
        rw [hbit i (le_of_not_lt hge)] at hb
        exact Bool.false_ne_true hb
      have h0 : (n &&& ((2 ^ w - 1) ^^^ m)).testBit i = false := by
        rw [h]; exact Nat.zero_testBit i
      rw [Nat.testBit_land, Nat.testBit_xor, Nat.testBit_two_pow_sub_one, hb] at h0
      have hmw : m.testBit i = true := by
        cases hm2 : m.testBit i with
        | true => rfl
        | false => rw [hm2] at h0; simp [hiw] at h0
      rw [hmw]; rfl
  · intro h
    apply Nat.eq_of_testBit_eq
    intro i
    rw [Nat.testBit_land, Nat.zero_testBit, Nat.testBit_xor,
      Nat.testBit_two_pow_sub_one]
    by_cases hiw : i < w
    · cases hb : n.testBit i with
      | false => simp
      | true =>
        have hm : m.testBit i = true := by
          have := congrArg (fun x => Nat.testBit x i) h
          simp only [Nat.testBit_land, hb, Bool.true_and] at this
          exact this
        simp [hm, decide_eq_true hiw]
    · rw [hbit i (le_of_not_lt hiw)]
      simp

/-- C8: for each 16-bit little-endian value in {0, 0x8664, 0x200, 0x14C},
`Machine::parse` succeeds and returns the corresponding variant (Unknown,
AMD64, IA64, I386 respectively); every other 16-bit value fails with the
unrecognized-code error (`map_res` rejection, kind `MapRes`, in the
"Machine" context); there is no catch-all accepting variant. -/
theorem C8_machine_parse (n : Nat) (rest : Squige.Input) (h : n < 0x10000) :
    Squige.Machine.parse (Squige.encodeLE16 n ++ rest) =
      (if n = 0 then .ok (rest, Machine.Unknown)
       else if n = 0x8664 then .ok (rest, Machine.AMD64)
       else if n = 0x200 then .ok (rest, Machine.IA64)
       else if n = 0x14C then .ok (rest, Machine.I386)
       else .error ⟨.mapRes, ["Machine"]⟩) := by
  simp only [Machine.parse, context, mapRes, leU16_encode n rest h, Machine.tryFrom]
  by_cases h0 : n = 0
  · simp [h0]
  by_cases h1 : n = 0x8664
  · simp [h0, h1]
  by_cases h2 : n = 0x200
  · simp [h0, h1, h2]
  by_cases h3 : n = 0x14C
  · simp [h0, h1, h2, h3]
  · simp [h0, h1, h2, h3]

/-- C9: for every bit pattern that is a subset of the defined mask of the
flag type (file `Characteristics`, `DllCharacteristics`, or section
`Characteristics`), parse succeeds and the resulting flag set carries exactly
that bit pattern (so re-encoding via `.bits` returns the same pattern,
including the all-bits-clear empty set); for every pattern with at least one
bit outside the defined mask, parse fails with the unrecognized-bits error
(`map_res` rejection of `from_bits`, kind `MapRes`). -/
theorem C9_flag_roundtrip :
    (∀ n rest, n < 0x10000 →
      FileCharacteristics.parse (Squige.encodeLE16 n ++ rest) =
        (if n &&& FileCharacteristics.mask = n
         then .ok (rest, ⟨n⟩)
         else .error ⟨.mapRes, ["Characteristics"]⟩)) ∧
    (∀ n rest, n < 0x10000 →
      DllCharacteristics.parse (Squige.encodeLE16 n ++ rest) =
        (if n &&& DllCharacteristics.mask = n
         then .ok (rest, ⟨n⟩)
         else .error ⟨.mapRes, ["DllCharacteristics"]⟩)) ∧
    (∀ n rest, n < 0x100000000 →
      SectionCharacteristics.parse (Squige.encodeLE32 n ++ rest) =
        (if n &&& SectionCharacteristics.mask = n
         then .ok (rest, ⟨n⟩)
         else .error ⟨.mapRes, ["Characteristics"]⟩)) := by
  have h16 : (0xFFFF : Nat) = 2 ^ 16 - 1 := by norm_num
  have h32 : (0xFFFFFFFF : Nat) = 2 ^ 32 - 1 := by norm_num
  refine ⟨?_, ?_, ?_⟩
  · intro n rest h
    have hiff := land_xor_ones_eq_zero_iff 16 n FileCharacteristics.mask
      (by norm_num at h ⊢; omega)
    simp only [FileCharacteristics.parse, context, mapRes,
      leU16_encode n rest h]
    by_cases hc : n &&& FileCharacteristics.mask = n
    · have hc0 : n &&& (0xFFFF ^^^ FileCharacteristics.mask) = 0 := by
        rw [h16]; exact hiff.mpr hc
      simp [FileCharacteristics.from_bits, hc0, hc]
    · have hc0 : ¬n &&& (0xFFFF ^^^ FileCharacteristics.mask) = 0 := by
        rw [h16]; exact fun hx => hc (hiff.mp hx)
      simp [FileCharacteristics.from_bits, hc0, hc]
  · intro n rest h
    have hiff := land_xor_ones_eq_zero_iff 16 n DllCharacteristics.mask
      (by norm_num at h ⊢; omega)
    simp only [DllCharacteristics.parse, context, mapRes,
      leU16_encode n rest h]
    by_cases hc : n &&& DllCharacteristics.mask = n
    · have hc0 : n &&& (0xFFFF ^^^ DllCharacteristics.mask) = 0 := by
        rw [h16]; exact hiff.mpr hc
      simp [DllCharacteristics.from_bits, hc0, hc]
    · have hc0 : ¬n &&& (0xFFFF ^^^ DllCharacteristics.mask) = 0 := by
        rw [h16]; exact fun hx => hc (hiff.mp hx)
      simp [DllCharacteristics.from_bits, hc0, hc]
  · intro n rest h
    have hiff := land_xor_ones_eq_zero_iff 32 n SectionCharacteristics.mask
      (by norm_num at h ⊢; omega)
    simp only [SectionCharacteristics.parse, context, mapRes,
      leU32_encode n rest h]
    by_cases hc : n &&& SectionCharacteristics.mask = n
    · have hc0 : n &&& (0xFFFFFFFF ^^^ SectionCharacteristics.mask) = 0 := by
        rw [h32]; exact hiff.mpr hc
      simp [SectionCharacteristics.from_bits, hc0, hc]
    · have hc0 : ¬n &&& (0xFFFFFFFF ^^^ SectionCharacteristics.mask) = 0 := by
        rw [h32]; exact fun hx => hc (hiff.mp hx)
      simp [SectionCharacteristics.from_bits, hc0, hc]

/-- Witness for C9: in each of the three flag families, an in-mask pattern
round-trips and an out-of-mask pattern is rejected. -/
theorem C9_witness :
    FileCharacteristics.parse (Squige.encodeLE16 0x2102 ++ []) =
      .ok ([], ⟨0x2102⟩) ∧
    FileCharacteristics.parse (Squige.encodeLE16 0x0042 ++ []) =
      .error ⟨.mapRes, ["Characteristics"]⟩ ∧
    DllCharacteristics.parse (Squige.encodeLE16 0x0160 ++ []) =
      .ok ([], ⟨0x0160⟩) ∧
    DllCharacteristics.parse (Squige.encodeLE16 0x0001 ++ []) =
      .error ⟨.mapRes, ["DllCharacteristics"]⟩ ∧
    SectionCharacteristics.parse (Squige.encodeLE32 0x60500020 ++ []) =
      .ok ([], ⟨0x60500020⟩) ∧
    SectionCharacteristics.parse (Squige.encodeLE32 0x00000002 ++ []) =
      .error ⟨.mapRes, ["Characteristics"]⟩ := by
  refine ⟨?_, ?_, ?_, ?_, ?_, ?_⟩
  · have h := C9_flag_roundtrip.1 0x2102 [] (by norm_num)
    simpa using h
  · have h := C9_flag_roundtrip.1 0x0042 [] (by norm_num)
    simpa using h
  · have h := C9_flag_roundtrip.2.1 0x0160 [] (by norm_num)
    simpa using h
  · have h := C9_flag_roundtrip.2.1 0x0001 [] (by norm_num)
    simpa using h
  · have h := C9_flag_roundtrip.2.2 0x60500020 [] (by norm_num)
    simpa using h
  · have h := C9_flag_roundtrip.2.2 0x00000002 [] (by norm_num)
    simpa using h

/-- Witness for C8: the AMD64 code 0x8664 decodes to `Machine.AMD64` and the
unmapped code 0x1234 is rejected with the unrecognized-code error. -/
theorem C8_witness :
    Squige.Machine.parse (Squige.encodeLE16 0x8664 ++ []) =
      .ok ([], Machine.AMD64) ∧
    Squige.Machine.parse (Squige.encodeLE16 0x1234 ++ []) =
      .error ⟨.mapRes, ["Machine"]⟩ := by
  constructor
  · have h := C8_machine_parse 0x8664 [] (by norm_num)
    simpa using h
  · have h := C8_machine_parse 0x1234 [] (by norm_num)
    simpa using h

theorem parseSectionsLoop_length (full : Squige.Input) (cs : List Squige.Input)
    (secs : List Squige.SectionHeader)
    (h : Squige.parseSectionsLoop full cs = some (.ok secs)) :
    secs.length = cs.length := by
  induction cs generalizing secs with
  | nil =>
    simp only [parseSectionsLoop, Option.some.injEq, Except.ok.injEq] at h
    rw [← h]
    rfl
  | cons c cs ih =>
    simp only [parseSectionsLoop] at h
    cases hp : Squige.SectionHeader.parse full c with
    | none => rw [hp] at h; simp at h
    | some r =>
      rw [hp] at h
      cases r with
      | error e => simp at h
      | ok pr =>
        obtain ⟨rest, sec⟩ := pr
        simp only at h
        cases hl : Squige.parseSectionsLoop full cs with
        | none => rw [hl] at h; simp at h
        | some r2 =>
          rw [hl] at h
          cases r2 with
          | error e => simp at h
          | ok secs' =>
            simp only [Option.some.injEq, Except.ok.injEq] at h
            rw [← h]
            simp [ih secs' hl]

/-- C4 (amended): a successful `File::parse` returns at most
`number_of_sections` sections; the loop takes up to that many 40-byte chunks
and silently accepts fewer when the post-header remainder is short. -/
theorem C4_sections_at_most_declared (i : Squige.Input) (n m : Nat)
    (hn : Squige.parsedSectionCount i = some n)
    (hm : Squige.parsedDeclaredCount i = some m) : n ≤ m := by
  unfold Squige.parsedSectionCount Squige.File.parseSuccess at hn
  unfold Squige.parsedDeclaredCount Squige.File.parseSuccess at hm
  cases hp : Squige.File.parse i with
  | none => rw [hp] at hn; simp at hn
  | some r =>
    rw [hp] at hn hm
    cases r with
    | error e => simp at hn
    | ok pr =>
      obtain ⟨rest, f⟩ := pr
      simp only [Option.map_some'] at hn hm
      unfold Squige.File.parse at hp
      cases hh : Squige.PeHeader64.parse i with
      | none => rw [hh] at hp; simp at hp
      | some hr =>
        rw [hh] at hp
        cases hr with
        | error e => simp at hp
        | ok hpr =>
          obtain ⟨i', header⟩ := hpr
          simp only at hp
          cases hl : Squige.parseSectionsLoop i
              ((Squige.chunks40 i').take header.number_of_sections) with
          | none => rw [hl] at hp; simp at hp
          | some lr =>
            rw [hl] at hp
            cases lr with
            | error e => simp at hp
            | ok sections =>
              simp only [Option.some.injEq, Except.ok.injEq,
                Prod.mk.injEq] at hp
              obtain ⟨hrest, hf⟩ := hp
              have hlen := parseSectionsLoop_length i _ sections hl
              rw [← hf] at hn hm
              simp only [Option.some.injEq] at hn hm
              rw [← hn, ← hm]
              rw [hlen, List.length_take]
              exact Nat.min_le_left _ _

/-- C4 (counterexample): `bufNoSec` has a fully valid header declaring one
section and no bytes after it; `File::parse` succeeds with zero sections
instead of failing, so a successful result can have fewer sections than the
declared count. -/
theorem C4_counterexample :
    Squige.parsedSectionCount Squige.bufNoSec = some 0 ∧
    Squige.parsedDeclaredCount Squige.bufNoSec = some 1 := ⟨rfl, rfl⟩

/-- Witness for C4: `bufOk` decodes with exactly one section, matching its
declared count. -/
theorem C4_witness :
    Squige.parsedSectionCount Squige.bufOk = some 1 ∧
    Squige.parsedDeclaredCount Squige.bufOk = some 1 ∧ (1 : Nat) ≤ 1 :=
  ⟨rfl, rfl, C4_sections_at_most_declared Squige.bufOk 1 1 rfl rfl⟩

/-- C1 (code evaluation): the top-level decode panics — modelled as `none` —
on the empty buffer and on any buffer shorter than 0x3D bytes, because
`PeHeader64::parse` reads `i[0x3C]` without a bounds check; the panic
propagates through `parse_or_print_error`. -/
theorem C1_short_buffer_panics :
    Squige.File.parse [] = none ∧
    Squige.File.parse_or_print_error [] = none ∧
    Squige.File.parse (List.replicate 0x3C 0) = none :=
  ⟨rfl, rfl, rfl⟩

/-- C2 (code evaluation): `bufOOB` has a valid header and one section record
whose `raw_data_pointer + raw_data_size = 0x200` exceeds the 368-byte buffer
length; decode panics (modelled as `none`) on the unchecked slice instead of
reporting an out-of-bounds error. -/
theorem C2_oob_section_panics :
    Squige.File.parse Squige.bufOOB = none ∧ Squige.bufOOB.length = 368 :=
  ⟨rfl, rfl⟩

/-- C3 (code evaluation): `bufData` declares a section whose raw-data range
[368, 376) lies entirely inside the 376-byte buffer, yet decode panics
(modelled as `none`): the slice is taken from the empty post-record remainder
instead of the full buffer (the `full_input` parameter is never used). -/
theorem C3_full_buffer_slice_not_used :
    Squige.File.parse Squige.bufData = none ∧ Squige.bufData.length = 376 :=
  ⟨rfl, rfl⟩

theorem utf8LossyGo_ascii (fuel : Nat) :
    ∀ l : List Nat, l.length ≤ fuel → (∀ b ∈ l, b < 0x80) →
      Squige.utf8LossyGo fuel l = l := by
  induction fuel with
  | zero =>
    intro l hl _
    cases l with
    | nil => rfl
    | cons b bs => simp at hl
  | succ fuel ih =>
    intro l hl hb
    cases l with
    | nil => rfl
    | cons b bs =>
      simp only [utf8LossyGo]
      rw [if_pos (hb b (by simp))]
      have hbs : bs.length ≤ fuel := by simpa using hl
      rw [ih bs hbs (fun x hx => hb x (by simp [hx]))]

theorem utf8Lossy_ascii (l : List Nat) (h : ∀ b ∈ l, b < 0x80) :
    Squige.utf8Lossy l = l :=
  utf8LossyGo_ascii l.length l le_rfl h

theorem dropWhile_eq_self_of_none (p : Nat → Bool) (l : List Nat)
    (h : ∀ b ∈ l, p b = false) : l.dropWhile p = l := by
  cases l with
  | nil => rfl
  | cons a t =>
    rw [List.dropWhile_cons, h a (by simp)]
    simp

theorem trimCodepoints_eq_self (l : List Nat)
    (h : ∀ b ∈ l, Squige.isRustWhitespace b = false) :
    Squige.trimCodepoints l = l := by
  unfold Squige.trimCodepoints
  rw [dropWhile_eq_self_of_none _ _ h,
    dropWhile_eq_self_of_none _ _ (fun b hb => h b (List.mem_reverse.mp hb)),
    List.reverse_reverse]

theorem isRustWhitespace_false_of_printable (b : Nat) (h1 : 0x21 ≤ b)
    (h2 : b ≤ 0x7E) : Squige.isRustWhitespace b = false := by
  simp only [Squige.isRustWhitespace, Bool.or_eq_false_iff,
    beq_eq_false_iff_ne, ne_eq, Bool.and_eq_false_iff,
    decide_eq_false_iff_not]
  omega

/-- C5 (counterexample): the name field "abc" followed by five null bytes
decodes — through the actual `SectionHeader::parse` path — to the 8-codepoint
string that still contains the five nulls, not to "abc"; and an 8-byte ASCII
name with a leading space decodes to only 7 codepoints, because `trim`
removes surrounding whitespace but not null padding. -/
theorem C5_counterexample :
    Squige.parsedSectionName [] Squige.recAbc =
      some [0x61, 0x62, 0x63, 0, 0, 0, 0, 0] ∧
    [0x61, 0x62, 0x63, 0, 0, 0, 0, 0] ≠ [0x61, 0x62, 0x63] ∧
    Squige.decodeSectionName [0x20, 0x62, 0x63, 0x64, 0x65, 0x66, 0x67, 0x68] =
      [0x62, 0x63, 0x64, 0x65, 0x66, 0x67, 0x68] :=
  ⟨rfl, by decide, rfl⟩

/-- C5 (amended): section-name decoding trims surrounding whitespace, not
null padding: an 8-byte name of printable non-whitespace ASCII decodes to
itself (in particular 8 such characters with no null terminator decode to
the 8-character name), while "abc" followed by five null bytes decodes to
the 8-character string that retains the nulls. -/
theorem C5_name_trims_whitespace_not_nulls :
    (∀ raw : List Nat, (∀ b ∈ raw, 0x21 ≤ b ∧ b ≤ 0x7E) →
      Squige.decodeSectionName raw = raw) ∧
    Squige.decodeSectionName [0x61, 0x62, 0x63, 0, 0, 0, 0, 0] =
      [0x61, 0x62, 0x63, 0, 0, 0, 0, 0] := by
  constructor
  · intro raw h
    unfold Squige.decodeSectionName
    rw [utf8Lossy_ascii raw (fun b hb => by have := h b hb; omega)]
    exact trimCodepoints_eq_self raw
      (fun b hb => isRustWhitespace_false_of_printable b (h b hb).1 (h b hb).2)
  · rfl

/-- Witness for C5: the 8 printable ASCII bytes ".text123" decode to
themselves. -/
theorem C5_witness :
    Squige.decodeSectionName [0x2E, 0x74, 0x65, 0x78, 0x74, 0x31, 0x32, 0x33] =
      [0x2E, 0x74, 0x65, 0x78, 0x74, 0x31, 0x32, 0x33] :=
  C5_name_trims_whitespace_not_nulls.1 _ (by decide)

/-- C6 (counterexample): a 240-byte optional-header region whose first two
bytes are 0x0B 0x02 — not 0x0B 0x20 — decodes successfully, refuting the
claim that decoding succeeds only when the region starts with 0x0B 0x20. -/
theorem C6_counterexample :
    Squige.optionalHeaderOk Squige.optBuf = true ∧
    Squige.optBuf.take 2 = [0x0B, 0x02] ∧
    Squige.optBuf.take 2 ≠ [0x0B, 0x20] :=
  ⟨rfl, rfl, by decide⟩

/-- C6 (amended): the optional-header magic is the byte pair 0x0B 0x02 (the
true little-endian representation of the constant 0x020B): decoding succeeds
only when the region starts with these two bytes, and any other leading
two-byte value fails with the bad-magic error (a `tag` mismatch in the
"Magic" context). -/
theorem C6_magic_is_0B02 :
    (∀ (i : Squige.Input) (r : Squige.Input × Squige.OptionalHeader64),
      Squige.OptionalHeader64.parse i = .ok r → i.take 2 = [0x0B, 0x02]) ∧
    (∀ (b0 b1 : Nat) (rest : Squige.Input), ¬(b0 = 0x0B ∧ b1 = 0x02) →
      Squige.OptionalHeader64.parse (b0 :: b1 :: rest) =
        .error ⟨.tag, ["Magic"]⟩) := by
  constructor
  · intro i r h
    by_cases hp : Squige.OptionalHeader64.MAGIC.isPrefixOf i
    · have hpre := List.isPrefixOf_iff_prefix.mp hp
      have := List.prefix_iff_eq_take.mp hpre
      exact this.symm
    · exfalso
      simp [Squige.OptionalHeader64.parse, Squige.pbind, Squige.context,
        Squige.tagP, hp] at h
  · intro b0 b1 rest hne
    have hpf : Squige.OptionalHeader64.MAGIC.isPrefixOf (b0 :: b1 :: rest)
        = false := by
      simp only [Squige.OptionalHeader64.MAGIC, List.isPrefixOf,
        Bool.and_eq_false_iff, beq_eq_false_iff_ne, ne_eq]
      by_cases h0 : b0 = 0x0B
      · right
        left
        intro h1
        exact hne ⟨h0, h1.symm⟩
      · left
        intro h
        exact h0 h.symm
    simp [Squige.OptionalHeader64.parse, Squige.pbind, Squige.context,
      Squige.tagP, hpf]

/-- Witness for C6: the byte pair 0x0B 0x20 that the spec text names is in
fact rejected with the bad-magic error, and a successful parse of `optBuf`
starts with 0x0B 0x02. -/
theorem C6_witness :
    Squige.OptionalHeader64.parse [0x0B, 0x20] = .error ⟨.tag, ["Magic"]⟩ ∧
    Squige.optBuf.take 2 = [0x0B, 0x02] :=
  ⟨C6_magic_is_0B02.2 0x0B 0x20 [] (by simp),
   C6_magic_is_0B02.1 Squige.optBuf ([], Squige.ohZero) rfl⟩

/-- C7 (counterexample): a `WindowsFields` region whose reserved
`Win32VersionValue` and `LoaderFlags` fields are both 1 decodes successfully
(and stores the non-zero values), instead of failing with a
malformed-reserved-field error. -/
theorem C7_counterexample :
    Squige.WindowsFields.parse (Squige.mkWF 1 1) =
      .ok ([], Squige.wfExpected 1 1) ∧
    (Squige.wfExpected 1 1).win32_version_value = 1 ∧
    (Squige.wfExpected 1 1).loader_flags = 1 :=
  ⟨rfl, rfl, rfl⟩

/-- C7 (amended): the decoder reads `win32_version_value` and `loader_flags`
as plain little-endian u32 fields and stores them without any must-be-zero
validation: decoding succeeds for every pair of 32-bit values in those
fields (the reserved-field enforcement exists only for the data-directory
architecture and padding slots and the section line-number fields). -/
theorem C7_reserved_fields_not_validated (v w : Nat)
    (hv : v < 0x100000000) (hw : w < 0x100000000) :
    Squige.WindowsFields.parse (Squige.mkWF v w) =
      .ok ([], Squige.wfExpected v w) := by
  simp only [Squige.mkWF, Squige.encodeLE32, List.cons_append,
    List.nil_append]
  simp [Squige.WindowsFields.parse, Squige.pbind, Squige.context, Squige.pOk,
    Squige.leU64, Squige.leU32, Squige.leU16, Squige.Subsystem.parse,
    Squige.mapRes, Squige.Subsystem.tryFrom, Squige.DllCharacteristics.parse,
    Squige.DllCharacteristics.from_bits, Squige.wfExpected]
  omega

/-- Witness for C7: the concrete reserved values 1 and 2 decode successfully
and are stored unchanged. -/
theorem C7_witness :
    Squige.WindowsFields.parse (Squige.mkWF 1 2) =
      .ok ([], Squige.wfExpected 1 2) :=
  C7_reserved_fields_not_validated 1 2 (by norm_num) (by norm_num)

theorem consumes_pOk {α : Type} (a : α) : Squige.Consumes (Squige.pOk a) 0 := by
  intro i rest x h
  simp only [Squige.pOk, Except.ok.injEq, Prod.mk.injEq] at h
  rw [← h.1]
  rfl

theorem consumes_pbind {α β : Type} {p : Squige.Parser α}
    {f : α → Squige.Parser β} {k j : Nat} (hp : Squige.Consumes p k)
    (hf : ∀ a, Squige.Consumes (f a) j) :
    Squige.Consumes (Squige.pbind p f) (k + j) := by
  intro i rest b h
  unfold Squige.pbind at h
  cases hq : p i with
  | error e => rw [hq] at h; simp at h
  | ok pr =>
    obtain ⟨i', a⟩ := pr
    rw [hq] at h
    simp only at h
    have h1 := hp i i' a hq
    have h2 := (hf a) i' rest b h
    rw [h2, h1, List.drop_drop]

theorem consumes_context {α : Type} {p : Squige.Parser α} {k : Nat}
    (label : String) (hp : Squige.Consumes p k) :
    Squige.Consumes (Squige.context label p) k := by
  intro i rest a h
  unfold Squige.context at h
  cases hq : p i with
  | error e => rw [hq] at h; simp at h
  | ok pr =>
    rw [hq] at h
    simp only [Except.ok.injEq] at h
    rw [h] at hq
    exact hp i rest a hq

theorem consumes_mapRes {α β : Type} {p : Squige.Parser α} {f : α → Option β}
    {k : Nat} (hp : Squige.Consumes p k) :
    Squige.Consumes (Squige.mapRes p f) k := by
  intro i rest b h
  unfold Squige.mapRes at h
  cases hq : p i with
  | error e => rw [hq] at h; simp at h
  | ok pr =>
    obtain ⟨i', a⟩ := pr
    rw [hq] at h
    simp only at h
    cases hfa : f a with
    | none => rw [hfa] at h; simp at h
    | some b' =>
      rw [hfa] at h
      simp only [Except.ok.injEq, Prod.mk.injEq] at h
      rw [← h.1]
      exact hp i i' a hq

theorem consumes_pmap {α β : Type} {p : Squige.Parser α} {f : α → β}
    {k : Nat} (hp : Squige.Consumes p k) :
    Squige.Consumes (Squige.pmap p f) k := by
  have h0 : k = k + 0 := rfl
  rw [h0]
  exact consumes_pbind hp (fun a => consumes_pOk (f a))

theorem consumes_leU8 : Squige.Consumes Squige.leU8 1 := by
  intro i rest a h
  cases i with
  | nil => simp [Squige.leU8] at h
  | cons b0 t =>
    simp only [Squige.leU8, Except.ok.injEq, Prod.mk.injEq] at h
    rw [← h.1]
    rfl

theorem consumes_leU16 : Squige.Consumes Squige.leU16 2 := by
  intro i rest a h
  rcases i with _ | ⟨b0, _ | ⟨b1, t⟩⟩ <;>
    first
      | (simp only [Squige.leU16, Except.ok.injEq, Prod.mk.injEq] at h
         rw [← h.1]
         rfl)
      | simp [Squige.leU16] at h

theorem consumes_leU32 : Squige.Consumes Squige.leU32 4 := by
  intro i rest a h
  rcases i with _ | ⟨b0, _ | ⟨b1, _ | ⟨b2, _ | ⟨b3, t⟩⟩⟩⟩ <;>
    first
      | (simp only [Squige.leU32, Except.ok.injEq, Prod.mk.injEq] at h
         rw [← h.1]
         rfl)
      | simp [Squige.leU32] at h

theorem consumes_leU64 : Squige.Consumes Squige.leU64 8 := by
  intro i rest a h
  rcases i with _ | ⟨b0, _ | ⟨b1, _ | ⟨b2, _ | ⟨b3, _ | ⟨b4, _ |
    ⟨b5, _ | ⟨b6, _ | ⟨b7, t⟩⟩⟩⟩⟩⟩⟩⟩ <;>
    first
      | (simp only [Squige.leU64, Except.ok.injEq, Prod.mk.injEq] at h
         rw [← h.1]
         rfl)
      | simp [Squige.leU64] at h

theorem consumes_tagP (bs : List Nat) :
    Squige.Consumes (Squige.tagP bs) bs.length := by
  intro i rest a h
  unfold Squige.tagP at h
  by_cases hp : bs.isPrefixOf i
  · rw [if_pos hp] at h
    simp only [Except.ok.injEq, Prod.mk.injEq] at h
    exact h.1.symm
  · rw [if_neg hp] at h
    simp at h

theorem consumes_Addr32 : Squige.Consumes Squige.Addr32.parse 4 :=
  consumes_pmap consumes_leU32

theorem consumes_Addr : Squige.Consumes Squige.Addr.parse 8 :=
  consumes_pmap consumes_leU64

theorem consumes_DataDirectory :
    Squige.Consumes Squige.DataDirectory.parse 8 := by
  have h : Squige.Consumes Squige.DataDirectory.parse (4 + (4 + 0)) := by
    unfold Squige.DataDirectory.parse
    exact consumes_pbind (consumes_context _ consumes_Addr32)
      (fun _ => consumes_pbind (consumes_context _ consumes_leU32)
        (fun _ => consumes_pOk _))
  simpa using h

/-- C10: whenever `DataDirectories::parse` succeeds it leaves exactly the
input minus its first 128 bytes (sixteen 8-byte slots), for every input; the
parse is a function of the input alone and in particular never consults the
`number_of_rva_and_sizes` count decoded earlier into `WindowsFields`. -/
theorem C10_datadirs_consume_128 (i rest : Squige.Input)
    (r : Squige.DataDirectories)
    (h : Squige.DataDirectories.parse i = .ok (rest, r)) :
    rest = i.drop 128 := by
  have hc : Squige.Consumes Squige.DataDirectories.parse
      (8 + (8 + (8 + (8 + (8 + (8 + (8 + (8 + (8 + (8 + (8 + (8 + (8 + (8 +
        (8 + (8 + 0)))))))))))))))) := by
    unfold Squige.DataDirectories.parse
    exact consumes_pbind (consumes_context _ consumes_DataDirectory) (fun _ =>
      consumes_pbind (consumes_context _ consumes_DataDirectory) (fun _ =>
      consumes_pbind (consumes_context _ consumes_DataDirectory) (fun _ =>
      consumes_pbind (consumes_context _ consumes_DataDirectory) (fun _ =>
      consumes_pbind (consumes_context _ consumes_DataDirectory) (fun _ =>
      consumes_pbind (consumes_context _ consumes_DataDirectory) (fun _ =>
      consumes_pbind (consumes_context _ consumes_DataDirectory) (fun _ =>
      consumes_pbind (consumes_context _ (consumes_tagP [0,0,0,0,0,0,0,0]))
        (fun _ =>
      consumes_pbind (consumes_context _ consumes_Addr) (fun _ =>
      consumes_pbind (consumes_context _ consumes_DataDirectory) (fun _ =>
      consumes_pbind (consumes_context _ consumes_DataDirectory) (fun _ =>
      consumes_pbind (consumes_context _ consumes_DataDirectory) (fun _ =>
      consumes_pbind (consumes_context _ consumes_DataDirectory) (fun _ =>
      consumes_pbind (consumes_context _ consumes_DataDirectory) (fun _ =>
      consumes_pbind (consumes_context _ consumes_DataDirectory) (fun _ =>
      consumes_pbind (consumes_context _ (consumes_tagP [0,0,0,0,0,0,0,0]))
        (fun _ => consumes_pOk _))))))))))))))))
  have hc' : Squige.Consumes Squige.DataDirectories.parse 128 := by
    simpa using hc
  exact hc' i rest r h

/-- Witness for C10: on the 130-byte all-zero buffer the directory table
parses and leaves exactly the final two bytes. -/
theorem C10_witness : [0, 0] = Squige.ddBuf.drop 128 :=
  C10_datadirs_consume_128 Squige.ddBuf [0, 0] Squige.ddZero rfl
